import Mathlib

/-
Verification development for the `LogicChecker` validation engine
(`logic_checker.py`): a pure rule checker that walks a song-project folder
tree and produces a report mapping paths to lists of error-message strings.

Modelling conventions:
* The filesystem/OS boundary (`os.listdir`, `os.path.exists`, `os.path.isdir`,
  `open(...).readlines()`, `soundfile.SoundFile`) is a record of functions
  (`OS`).  A Python exception raised by one of these is an `Except.error`
  value; exceptions the Python code does not catch propagate as `.error`
  results of the checker itself.
* `os.path.normpath(os.path.abspath(...))`, applied to every report key, is a
  parameter `canon : String → String` of the checker; `posix_canon` is a
  concrete instance (POSIX separators, the working directory fixed at "/").
* Python strings are Lean `String`s; the string helpers below reimplement the
  Python methods used by the source (`split`, `rsplit`, `strip`, `lower`,
  `startswith`, `endswith`, `in`, `str.join`, `isdigit`, `os.path.join`,
  `os.path.basename`, `os.path.splitext`).  Case folding, digit tests and
  whitespace are modelled for ASCII (the Unicode-only differences of
  `str.lower`, `str.isdigit`, `\d` and `str.strip` are not exercised here).
* Python dicts (the report and the instrument grouping) keep insertion order;
  they are association lists where insertion appends and update rewrites the
  first matching key.
-/

def mkStr (cs : List Char) : String := ⟨cs⟩

/-- Is `n` a (list) prefix of `l`? -/
def isPre : List Char → List Char → Bool
  | [], _ => true
  | _ :: _, [] => false
  | a :: as, b :: bs => if a = b then isPre as bs else false

/-- Does `n` occur as a contiguous substring of `l`?  (Python `n in l`.) -/
def containsSub (n : List Char) : List Char → Bool
  | [] => isPre n []
  | c :: rest => isPre n (c :: rest) || containsSub n rest

/-- Python `hay.startswith(needle)`. -/
def startsW (s t : String) : Bool := isPre t.data s.data

/-- Python `hay.endswith(needle)`. -/
def endsW (s t : String) : Bool := isPre t.data.reverse s.data.reverse

/-- Python `needle in hay` (substring containment). -/
def str_in (needle hay : String) : Bool := containsSub needle.data hay.data

/-- Python `s.lower()` (ASCII case folding). -/
def lowerS (s : String) : String := mkStr (s.data.map Char.toLower)

/-- ASCII/latin-1 whitespace stripped by Python `str.strip()`. -/
def pySpace (c : Char) : Bool :=
  (c == ' ') || (c == '\t') || (c == '\n') || (c == '\r') || (c == '\x0b') || (c == '\x0c')

/-- Python `s.strip()`. -/
def stripS (s : String) : String :=
  mkStr (((s.data.dropWhile pySpace).reverse.dropWhile pySpace).reverse)

/-- Split a character list on a single separator character (Python `s.split(sep)`). -/
def splitChar (sep : Char) : List Char → List (List Char)
  | [] => [[]]
  | c :: rest =>
    if c = sep then [] :: splitChar sep rest
    else
      match splitChar sep rest with
      | [] => [[c]]
      | h :: t => (c :: h) :: t

/-- Python `s.split(sep)` for a one-character separator. -/
def splitS (s : String) (sep : Char) : List String := (splitChar sep s.data).map mkStr

/-- Join character lists with a separator character. -/
def joinChar (sep : Char) : List (List Char) → List Char
  | [] => []
  | [x] => x
  | x :: y :: t => x ++ sep :: joinChar sep (y :: t)

/-- Python `sep.join(parts)`. -/
def joinSep (sep : String) : List String → String
  | [] => ""
  | [x] => x
  | x :: y :: t => x ++ sep ++ joinSep sep (y :: t)

/-- Python `s.isdigit()` (ASCII digits). -/
def isdigitS (s : String) : Bool :=
  match s.data with
  | [] => false
  | _ :: _ => s.data.all (fun c => c.isDigit)

/-- `os.path.join(a, b)` for POSIX paths. -/
def pjoin (a b : String) : String :=
  if startsW b "/" then b
  else if a = "" then a ++ b
  else if endsW a "/" then a ++ b
  else a ++ "/" ++ b

/-- `os.path.basename` for POSIX paths. -/
def basename (p : String) : String := mkStr ((splitChar '/' p.data).getLastD [])

def canon_step (acc : List (List Char)) (c : List Char) : List (List Char) :=
  if c = ['.', '.'] then acc.dropLast else acc ++ [c]

/-- `os.path.normpath(os.path.abspath(p))` for POSIX paths with the current
working directory fixed at the filesystem root (the leading-double-slash
special case of POSIX `normpath` is not modelled; no input here exercises it). -/
def posix_canon (p : String) : String :=
  let q := if startsW p "/" then p else "/" ++ p
  let comps := (splitChar '/' q.data).filter (fun c => !(c.isEmpty || c == ['.']))
  mkStr ('/' :: joinChar '/' (comps.foldl canon_step []))

/-- The root of `os.path.splitext(p)`: everything before the final dot, unless
every character before that dot is itself a dot (leading dots of the name are
part of the root).  The names this is applied to contain no path separator. -/
def splitext_root (p : String) : String :=
  let cs := p.data
  let idxs := (List.range cs.length).filter (fun i => cs.getD i ' ' == '.')
  match idxs.getLast? with
  | none => p
  | some i => if (cs.take i).all (fun c => c == '.') then p else mkStr (cs.take i)

/-- Python `s.rsplit("_", 1)` for a string known to contain an underscore:
the pair (everything before the last underscore, everything after it). -/
def rsplit_us (s : String) : String × String :=
  let parts := splitChar '_' s.data
  (mkStr (joinChar '_' parts.dropLast), mkStr (parts.getLastD []))

/-
`re.match(r"^(.+?)_(.+?)_(.+?)$", item)`: the backtracking search tries the
first separator position in increasing order, then the second; each group is
nonempty; `.` matches no newline and `$` also matches just before one final
trailing newline.
-/

/-- All ways to write `cs` as `pre ++ '_' :: post`, ordered by the length of
`pre` (the order a backtracking regex engine tries them in). -/
def splits_us : List Char → List (List Char × List Char)
  | [] => []
  | c :: rest =>
    (if c = '_' then [(([] : List Char), rest)] else []) ++
      (splits_us rest).map (fun pr => (c :: pr.1, pr.2))

def re3_first (cs : List Char) : Option (List Char × List Char × List Char) :=
  ((splits_us cs).filterMap (fun pr =>
    if pr.1.isEmpty then none
    else ((splits_us pr.2).filterMap (fun qr =>
      if qr.1.isEmpty || qr.2.isEmpty then none
      else some (pr.1, qr.1, qr.2))).head?)).head?

/-- `re.match(r"^(.+?)_(.+?)_(.+?)$", item)`, returning the three groups. -/
def match_XYZ (item : String) : Option (String × String × String) :=
  let s := if endsW item "\n" then mkStr item.data.dropLast else item
  if s.data.any (fun c => c == '\n') then none
  else (re3_first s.data).map (fun t => (mkStr t.1, mkStr t.2.1, mkStr t.2.2))

/-- The header fields returned by opening a WAV with `soundfile.SoundFile`. -/
structure WavInfo where
  samplerate : Nat
  channels : Nat
  subtype : String
deriving DecidableEq

/-- Python exceptions relevant to the OS calls the checker leaves uncaught. -/
inductive PyErr where
  | fileNotFound
  | notADirectory
  | other (msg : String)
deriving DecidableEq

/-- The OS / audio-library boundary used by `LogicChecker`.
`listdir`, `pathExists`, `isdir` model `os.listdir` / `os.path.exists` /
`os.path.isdir`; `readlines` models `open(p, encoding="utf-8-sig").readlines()`
(the error payload is the exception's message); `sfOpen` models
`soundfile.SoundFile(p)` reading only the header. -/
structure OS where
  listdir : String → Except PyErr (List String)
  pathExists : String → Bool
  isdir : String → Bool
  readlines : String → Except String (List String)
  sfOpen : String → Except String WavInfo

/-- The report: insertion-ordered mapping from path to error strings. -/
abbrev ErrorMap := List (String × List String)

/-- Append `msg` under key `p`: extend the first entry with that key, or
append a new entry (Python dict insertion semantics). -/
def add_error_go (p msg : String) : ErrorMap → ErrorMap
  | [] => [(p, [msg])]
  | kv :: rest =>
    if kv.1 = p then (kv.1, kv.2 ++ [msg]) :: rest else kv :: add_error_go p msg rest

/-- The closure `add_error` of `check_song_folder`: the key is
`os.path.normpath(os.path.abspath(path))`, i.e. `canon path`. -/
def add_error (canon : String → String) (m : ErrorMap) (path msg : String) : ErrorMap :=
  add_error_go (canon path) msg m

/-- The list of messages recorded under key `k` (empty if absent). -/
def errsAt (m : ErrorMap) (k : String) : List String :=
  match m with
  | [] => []
  | kv :: rest => if kv.1 = k then kv.2 else errsAt rest k

def count_msg_list (msg : String) : List String → Nat
  | [] => 0
  | x :: rest => (if x = msg then 1 else 0) + count_msg_list msg rest

/-- How many times `msg` occurs among all values of the report. -/
def msg_count (msg : String) : ErrorMap → Nat
  | [] => 0
  | kv :: rest => count_msg_list msg kv.2 + msg_count msg rest

def getOk : Except PyErr ErrorMap → ErrorMap
  | .ok m => m
  | .error _ => []

def exBind (x : Except PyErr ErrorMap) (f : ErrorMap → Except PyErr ErrorMap) :
    Except PyErr ErrorMap :=
  match x with
  | .error e => .error e
  | .ok m => f m

/-! ## The embedded source: `LogicChecker` -/

/-- `LogicChecker.collect_files` (the bare `except:` returns `[]`). -/
def collect_files (os : OS) (folder ext : String) : List String :=
  match os.listdir folder with
  | .ok fs => fs.filter (fun f => endsW (lowerS f) (lowerS ext))
  | .error _ => []

/-- `LogicChecker.check_wav_format`. -/
def check_wav_format (os : OS) (wav_path : String) : Option String :=
  match os.sfOpen wav_path with
  | .ok f =>
    let errors : List String :=
      (if f.samplerate ≠ 96000 then ["采样率 " ++ (Nat.repr f.samplerate ++ " != 96000")] else []) ++
        ((if f.channels ≠ 2 then ["声道 " ++ (Nat.repr f.channels ++ " != 2")] else []) ++
          (if f.subtype ≠ "PCM_24" then ["位深 " ++ (f.subtype ++ " != PCM_24")] else []))
    if errors ≠ [] then some ("[音频格式错误] (" ++ (joinSep "; " errors ++ ")")) else none
  | .error e => some ("[无法读取WAV] (" ++ (e ++ ")"))

/-- The body of the "extra items" loop of `_validate_dir_contents`. -/
def vdc_item_step (canon : String → String) (os : OS) (folder_path ext : String)
    (valid_set : List String) (file_check_callback : Option (String → Option String))
    (m : ErrorMap) (item : String) : ErrorMap :=
  let item_path := pjoin folder_path item
  if os.isdir item_path then add_error canon m item_path ("[多余文件夹] " ++ item)
  else if endsW (lowerS item) (lowerS ext) = false then
    add_error canon m item_path ("[多余文件/格式错误] " ++ item)
  else if item ∉ valid_set then add_error canon m item_path ("[多余文件] " ++ item)
  else
    match file_check_callback with
    | some cb =>
      match cb item_path with
      | some fmt_err => add_error canon m item_path fmt_err
      | none => m
    | none => m

/-- `LogicChecker._validate_dir_contents`.  The unguarded
`os.listdir(folder_path)` after the existence check is the one statement whose
exception the Python code would propagate. -/
def _validate_dir_contents (canon : String → String) (os : OS) (folder_path ext : String)
    (expected_files allowed_files : List String)
    (file_check_callback : Option (String → Option String)) (m : ErrorMap) :
    Except PyErr ErrorMap :=
  if os.pathExists folder_path = false then .ok m
  else
    let existing_files := collect_files os folder_path ext
    let m := expected_files.foldl (fun m exp =>
      if exp ∈ existing_files then m
      else add_error canon m folder_path ("[缺失文件] " ++ exp)) m
    let valid_set := expected_files ++ allowed_files
    match os.listdir folder_path with
    | .error e => .error e
    | .ok all_items =>
      .ok (all_items.foldl (vdc_item_step canon os folder_path ext valid_set file_check_callback) m)

/-- One data row of the strict `{song}_Beat.csv` check (lines 218–231). -/
def beat_row_step (canon : String → String) (beat_path : String)
    (m : ErrorMap) (pr : Nat × String) : ErrorMap :=
  let idx := pr.1
  let line := stripS pr.2
  if line = "" then m
  else
    let parts := splitS line ','
    let m :=
      if parts.length ≠ 2 then
        add_error canon m beat_path ("[列数错误] 第" ++ (Nat.repr idx ++ "行不是2列"))
      else m
    if idx = 2 ∧ (str_in "time" (lowerS line) = true ∨ str_in "label" (lowerS line) = true) then
      add_error canon m beat_path ("[内容错误] 第" ++ (Nat.repr idx ++ "行疑似表头重复或格式不符"))
    else m

/-- The strict `{song}_Beat.csv` content check (the `try` around it catches
every exception of the read and turns it into a `[读取错误]` entry). -/
def beat_check (canon : String → String) (os : OS) (m : ErrorMap) (beat_path : String) :
    ErrorMap :=
  match os.readlines beat_path with
  | .error e => add_error canon m beat_path ("[读取错误] " ++ e)
  | .ok lines =>
    if lines = [] then add_error canon m beat_path "[内容错误] 文件为空"
    else
      let header := stripS (lines.headD "")
      let m :=
        if header ≠ "TIME,LABEL" then
          add_error canon m beat_path
            "[表头错误] 必须严格为 TIME,LABEL（全大写，逗号分隔，不能有多余空格）"
        else m
      (List.enumFrom 2 lines.tail).foldl (beat_row_step canon beat_path) m

def allowed_labels : List String := ["Intro", "Verse", "Chorus", "Bridge", "Outro"]

/-- The interpolation `f"{allowed_labels}"` of the Python set literal; CPython
renders string sets in a hash-dependent order, modelled here as insertion
order. -/
def allowed_labels_repr : String :=
  "\x7b\x27Intro\x27, \x27Verse\x27, \x27Chorus\x27, \x27Bridge\x27, \x27Outro\x27\x7d"

/-- `^\d{2}:\d{2}$` applied to an already-stripped cell. -/
def is_mm_ss (t : String) : Bool :=
  match t.data with
  | [a, b, c, d, e] => a.isDigit && b.isDigit && (c == ':') && d.isDigit && e.isDigit
  | _ => false

/-- One data row of the `{song}_Structure.csv` check. -/
def structure_row_step (canon : String → String) (structure_path : String) (ncols : Nat)
    (m : ErrorMap) (pr : Nat × String) : ErrorMap :=
  let idx := pr.1
  let line := stripS pr.2
  if line = "" then m
  else
    let parts := ((splitS line ',').map stripS).filter (fun p => p != "")
    let m :=
      if parts.length ≠ ncols then
        add_error canon m structure_path
          ("[列数错误] 第" ++ (Nat.repr idx ++ ("行应为" ++ (Nat.repr ncols ++ "列"))))
      else m
    parts.foldl (fun m t =>
      if is_mm_ss t = false then
        add_error canon m structure_path
          ("[时间格式错误] 第" ++ (Nat.repr idx ++ ("行 " ++ (t ++ " 应为mm:ss格式"))))
      else m) m

/-- The strict `{song}_Structure.csv` content check. -/
def structure_check (canon : String → String) (os : OS) (m : ErrorMap)
    (structure_path : String) : ErrorMap :=
  match os.readlines structure_path with
  | .error e => add_error canon m structure_path ("[读取错误] " ++ e)
  | .ok lines =>
    if lines = [] then add_error canon m structure_path "[内容错误] 文件为空"
    else
      let header := stripS (lines.headD "")
      let header_labels := ((splitS header ',').map stripS).filter (fun h => h != "")
      let m :=
        if header_labels = [] then add_error canon m structure_path "[表头错误] 不能为空" else m
      let m := header_labels.foldl (fun m h =>
        if h ∉ allowed_labels then
          add_error canon m structure_path
            ("[表头错误] " ++ (h ++ (" 不在允许的段落类型 " ++ allowed_labels_repr)))
        else m) m
      (List.enumFrom 2 lines.tail).foldl
        (structure_row_step canon structure_path header_labels.length) m

/-- One data row of the `乐器音源对照表.csv` sidecar check. -/
def instr_row_step (canon : String → String) (instr_map_path : String)
    (m : ErrorMap) (pr : Nat × String) : ErrorMap :=
  let idx := pr.1
  let line := stripS pr.2
  if line = "" then m
  else
    let parts := splitS line ','
    if parts.length ≠ 2 then
      add_error canon m instr_map_path ("[列数错误] 第" ++ (Nat.repr idx ++ "行不是2列"))
    else m

/-- The `乐器音源对照表.csv` content check. -/
def instr_csv_check (canon : String → String) (os : OS) (m : ErrorMap)
    (instr_map_path : String) : ErrorMap :=
  match os.readlines instr_map_path with
  | .error e => add_error canon m instr_map_path ("[读取错误] " ++ e)
  | .ok lines =>
    if lines = [] then add_error canon m instr_map_path "[内容错误] 文件为空"
    else
      let header := stripS (lines.headD "")
      let m :=
        if header ≠ "乐器,音源" then
          add_error canon m instr_map_path "[表头错误] 必须严格为 乐器,音源"
        else m
      (List.enumFrom 2 lines.tail).foldl (instr_row_step canon instr_map_path) m

/-- State of the first classification loop over the DAW-project folder. -/
structure MixScanSt where
  m : ErrorMap
  found_wavs : List String
  found_daw_files : List String
  found_csv : Bool

/-- One item of the DAW-project classification loop. -/
def mix_scan_step (canon : String → String) (os : OS) (mix_proj_root : String)
    (st : MixScanSt) (item : String) : MixScanSt :=
  let item_path := pjoin mix_proj_root item
  let item_lower := lowerS item
  if endsW item_lower ".wav" then
    if os.isdir item_path then
      { st with m := add_error canon st.m item_path ("[多余文件夹] " ++ (item ++ " (WAV不应是文件夹)")) }
    else { st with found_wavs := st.found_wavs ++ [item] }
  else if endsW item_lower ".flp" || endsW item_lower ".logicx" || endsW item_lower ".cpr" then
    { st with found_daw_files := st.found_daw_files ++ [item] }
  else if item = "乐器音源对照表.csv" then
    if os.isdir item_path then
      { st with m := add_error canon st.m item_path ("[类型错误] " ++ (item ++ " 不应是文件夹")) }
    else { st with found_csv := true }
  else
    let type_str := if os.isdir item_path then "文件夹" else "文件"
    { st with m := add_error canon st.m item_path ("[多余" ++ (type_str ++ ("] " ++ item))) }

/-- State of the WAV naming/format loop: the report plus the insertion-ordered
`instrument_groups` dict (`name ↦ [(file, has_num), …]`). -/
structure WavLoopSt where
  m : ErrorMap
  instrument_groups : List (String × List (String × Bool))

def groups_add : List (String × List (String × Bool)) → String → String × Bool →
    List (String × List (String × Bool))
  | [], k, v => [(k, [v])]
  | kv :: rest, k, v =>
    if kv.1 = k then (kv.1, kv.2 ++ [v]) :: rest else kv :: groups_add rest k v

/-- Parsing a DAW-project WAV name (after the `{song}_` prefix was checked):
strip the extension and the prefix, split on the last underscore, and treat a
purely numeric trailing segment as the take index. -/
def parse_inst (song_name wav_file : String) : String × Bool :=
  let content_part := mkStr ((splitext_root wav_file).data.drop (song_name.data.length + 1))
  if str_in "_" content_part then
    let ib := rsplit_us content_part
    if isdigitS ib.2 then (ib.1, true) else (content_part, false)
  else (content_part, false)

/-- One WAV of the DAW-project naming/format loop (lines 360–403). -/
def wav_loop_step (canon : String → String) (os : OS) (mix_proj_root song_name : String)
    (st : WavLoopSt) (wav_file : String) : WavLoopSt :=
  let wav_full_path := pjoin mix_proj_root wav_file
  let m :=
    match check_wav_format os wav_full_path with
    | some fmt_err => add_error canon st.m wav_full_path fmt_err
    | none => st.m
  if startsW wav_file (song_name ++ "_") = false then
    { m := add_error canon m wav_full_path
        ("[命名错误] 文件必须以歌曲名 \x27" ++ (song_name ++ "_\x27 开头")),
      instrument_groups := st.instrument_groups }
  else
    let pr := parse_inst song_name wav_file
    if pr.1 = "" then
      { m := add_error canon m wav_full_path
          "[格式错误] 乐器名不能为空，命名应为 \x27歌曲名_乐器名\x27 或 \x27歌曲名_乐器名_序号\x27",
        instrument_groups := st.instrument_groups }
    else { m := m, instrument_groups := groups_add st.instrument_groups pr.1 (wav_file, pr.2) }

/-- One instrument group of the take-index arity check (lines 405–423). -/
def arity_step (canon : String → String) (mix_proj_root : String) (m : ErrorMap)
    (g : String × List (String × Bool)) : ErrorMap :=
  let count := g.2.length
  if count = 1 then
    match g.2 with
    | [it] =>
      if it.2 then
        add_error canon m (pjoin mix_proj_root it.1)
          ("[命名冗余] 乐器 \x27" ++ (g.1 ++ "\x27 只有一条轨道，不应包含序号"))
      else m
    | _ => m
  else if count > 1 then
    g.2.foldl (fun m it =>
      if it.2 = false then
        add_error canon m (pjoin mix_proj_root it.1)
          ("[命名缺失] 乐器 \x27" ++ (g.1 ++ ("\x27 有 " ++ (Nat.repr count ++ " 条轨道，必须通过序号区分"))))
      else m) m
  else m

/-- Steps two to four of the DAW-project check, applied to the scan result:
the missing-DAW-file check, the sidecar-CSV presence/content check, the WAV
naming/format loop and the arity check. -/
def mix_after_scan (canon : String → String) (os : OS) (mix_proj_root song_name : String)
    (st : MixScanSt) : ErrorMap :=
  let m := st.m
  let m :=
    if st.found_daw_files = [] then
      add_error canon m mix_proj_root "[缺失文件] 缺少 DAW 工程文件 (需包含 .flp / .logicx / .cpr 任一)"
    else m
  let instr_map_path := pjoin mix_proj_root "乐器音源对照表.csv"
  let m :=
    if st.found_csv = false then
      add_error canon m mix_proj_root "[缺失文件] 缺少 乐器音源对照表.csv"
    else instr_csv_check canon os m instr_map_path
  let wst := st.found_wavs.foldl (wav_loop_step canon os mix_proj_root song_name) ⟨m, []⟩
  wst.instrument_groups.foldl (arity_step canon mix_proj_root) wst.m

/-- Section 7 of `check_song_folder`: the 混音工程原文件 (DAW-project) folder.
The `os.listdir` here is unguarded against everything except nonexistence. -/
def mix_proj_check (canon : String → String) (os : OS) (mix_proj_root song_name : String)
    (m : ErrorMap) : Except PyErr ErrorMap :=
  if os.pathExists mix_proj_root = false then .ok m
  else
    match os.listdir mix_proj_root with
    | .error e => .error e
    | .ok all_items =>
      .ok (mix_after_scan canon os mix_proj_root song_name
        (all_items.foldl (mix_scan_step canon os mix_proj_root) ⟨m, [], [], false⟩))

def expected_folders : List String := ["分轨wav", "总轨wav", "midi", "csv", "混音工程原文件"]

def naming_msg : String := "[命名错误] 文件夹须为 \x27作者_歌曲名_扒谱者\x27"

def track_required_suffixes : List String := ["Vocal_A", "Vocal_B", "Vocal_A(干声)", "Vocal_B(干声)"]

def track_allowed_suffixes : List String := ["BASS", "DR", "GTR", "PNO", "OTHER", "BG", "BG(干声)"]

/-- The strict per-file CSV stage (lines 203–274): the two content checks run
only when the respective file exists. -/
def csv_strict_stage (canon : String → String) (os : OS) (csv_root song_name : String)
    (m : ErrorMap) : ErrorMap :=
  let beat_path := pjoin csv_root (song_name ++ "_Beat.csv")
  let m := if os.pathExists beat_path then beat_check canon os m beat_path else m
  let structure_path := pjoin csv_root (song_name ++ "_Structure.csv")
  if os.pathExists structure_path then structure_check canon os m structure_path else m

/-- Steps 2–7 of `check_song_folder`, after the folder-naming check fixed
`song_name`: the top-level structure check (whose `os.listdir` catches only
`FileNotFoundError`), the four `_validate_dir_contents` reconciliations, the
two strict CSV checks and the DAW-project check. -/
def check_song_rest (canon : String → String) (os : OS) (song_path song_name : String)
    (m : ErrorMap) : Except PyErr ErrorMap :=
  match os.listdir song_path with
  | .error PyErr.fileNotFound => .ok m
  | .error e => .error e
  | .ok existing =>
    let m := expected_folders.foldl (fun m folder =>
      if folder ∈ existing then m
      else add_error canon m song_path ("[缺失目录] 缺少 " ++ folder)) m
    let m := existing.foldl (fun m f =>
      if f ∉ expected_folders ∧ startsW f "." = false then
        add_error canon m (pjoin song_path f) ("[多余项目] " ++ f)
      else m) m
    let track_expected := track_required_suffixes.map (fun s => song_name ++ ("_" ++ (s ++ ".wav")))
    let track_allowed := track_allowed_suffixes.map (fun s => song_name ++ ("_" ++ (s ++ ".wav")))
    exBind (_validate_dir_contents canon os (pjoin song_path "分轨wav") ".wav"
        track_expected track_allowed (some (check_wav_format os)) m) (fun m =>
    exBind (_validate_dir_contents canon os (pjoin song_path "总轨wav") ".wav"
        [song_name ++ "_Mix_A.wav", song_name ++ "_Mix_B.wav"] []
        (some (check_wav_format os)) m) (fun m =>
    exBind (_validate_dir_contents canon os (pjoin song_path "midi") ".mid"
        [song_name ++ "_Vocal_midi.mid", song_name ++ "_Mix_midi.mid"]
        [song_name ++ "_BG_midi.mid"] none m) (fun m =>
    exBind (_validate_dir_contents canon os (pjoin song_path "csv") ".csv"
        [song_name ++ "_Beat.csv", song_name ++ "_Structure.csv"] [] none m) (fun m =>
    mix_proj_check canon os (pjoin song_path "混音工程原文件") song_name
      (csv_strict_stage canon os (pjoin song_path "csv") song_name m)))))

/-- `LogicChecker.check_song_folder`: the folder-naming check runs first
(against the basename), then everything else with the extracted or fallback
song name. -/
def check_song_folder (canon : String → String) (os : OS) (song_path : String) :
    Except PyErr ErrorMap :=
  let item := basename song_path
  let mtch := match_XYZ item
  let m : ErrorMap :=
    match mtch with
    | none => add_error canon [] song_path naming_msg
    | some _ => []
  let song_name :=
    match mtch with
    | none => item
    | some g => g.2.1
  check_song_rest canon os song_path song_name m

/-! ## Report-map lemmas -/

theorem data_append (s t : String) : (s ++ t).data = s.data ++ t.data := by
  cases s; cases t; rfl

theorem take_len_append (a b : List Char) : (a ++ b).take a.length = a := by
  induction a with
  | nil => simp
  | cons c cs ih => simp [ih]

/-- Two strings differing within the length of the first's literal prefix are
distinct, whatever follows the prefix. -/
theorem append_take_ne (p x n : String) (h : n.data.take p.data.length ≠ p.data) :
    p ++ x ≠ n := by
  intro he
  apply h
  rw [← he, data_append]
  exact take_len_append p.data x.data

theorem errsAt_add_go_self (p q : String) (m : ErrorMap) :
    errsAt (add_error_go p q m) p = errsAt m p ++ [q] := by
  induction m with
  | nil => simp [add_error_go, errsAt]
  | cons kv rest ih =>
    by_cases h : kv.1 = p
    · simp [add_error_go, h, errsAt]
    · simp [add_error_go, h, errsAt, ih]

theorem errsAt_add_go_other (p q k : String) (m : ErrorMap) (h : k ≠ p) :
    errsAt (add_error_go p q m) k = errsAt m k := by
  have h' : ¬(p = k) := fun e => h e.symm
  induction m with
  | nil => simp [add_error_go, errsAt, h']
  | cons kv rest ih =>
    by_cases h1 : kv.1 = p
    · by_cases h2 : kv.1 = k
      · exact absurd (h1 ▸ h2) h'
      · simp [add_error_go, h1, errsAt, h2, h']
    · by_cases h2 : kv.1 = k
      · simp [add_error_go, h1, errsAt, h2, h, h']
      · simp [add_error_go, h1, errsAt, h2, h, h', ih]

theorem errsAt_add_self (canon : String → String) (m : ErrorMap) (p q : String) :
    errsAt (add_error canon m p q) (canon p) = errsAt m (canon p) ++ [q] :=
  errsAt_add_go_self (canon p) q m

theorem mem_errsAt_add (canon : String → String) (m : ErrorMap) (p q k q' : String)
    (h : q' ∈ errsAt m k) : q' ∈ errsAt (add_error canon m p q) k := by
  by_cases hk : k = canon p
  · subst hk
    rw [errsAt_add_self]
    exact List.mem_append_left _ h
  · rw [add_error, errsAt_add_go_other _ _ _ _ hk]
    exact h

theorem count_msg_list_append (msg : String) (a b : List String) :
    count_msg_list msg (a ++ b) = count_msg_list msg a + count_msg_list msg b := by
  induction a with
  | nil => simp [count_msg_list]
  | cons x xs ih => simp [count_msg_list, ih]; omega

theorem msg_count_add_go (p q msg : String) (m : ErrorMap) :
    msg_count msg (add_error_go p q m) = msg_count msg m + (if q = msg then 1 else 0) := by
  induction m with
  | nil => simp [add_error_go, msg_count, count_msg_list]
  | cons kv rest ih =>
    by_cases h : kv.1 = p
    · simp [add_error_go, h, msg_count, count_msg_list_append, count_msg_list]
      omega
    · simp [add_error_go, h, msg_count, ih]
      omega

theorem msg_count_add (canon : String → String) (m : ErrorMap) (p q msg : String) :
    msg_count msg (add_error canon m p q) = msg_count msg m + (if q = msg then 1 else 0) :=
  msg_count_add_go (canon p) q msg m

theorem keys_add_go (p q : String) (m : ErrorMap) :
    ∀ kv ∈ add_error_go p q m, kv.1 = p ∨ ∃ kv' ∈ m, kv.1 = kv'.1 := by
  induction m with
  | nil =>
    intro kv hkv
    simp [add_error_go] at hkv
    subst hkv
    exact Or.inl rfl
  | cons kv0 rest ih =>
    intro kv hkv
    by_cases h : kv0.1 = p
    · simp only [add_error_go, if_pos h] at hkv
      rcases List.mem_cons.mp hkv with he | ht
      · subst he; exact Or.inr ⟨kv0, List.mem_cons_self _ _, rfl⟩
      · exact Or.inr ⟨kv, List.mem_cons_of_mem _ ht, rfl⟩
    · simp only [add_error_go, if_neg h] at hkv
      rcases List.mem_cons.mp hkv with he | ht
      · subst he; exact Or.inr ⟨kv, List.mem_cons_self _ _, rfl⟩
      · rcases ih kv ht with h1 | ⟨kv', hkv', he⟩
        · exact Or.inl h1
        · exact Or.inr ⟨kv', List.mem_cons_of_mem _ hkv', he⟩

/-! ## The accumulation relation: a report extended only through `add_error` -/

/-- `ExtBy canon P m M`: `M` arises from `m` by a sequence of `add_error`
calls whose messages all satisfy `P`.  Every phase of the checker relates its
input and output report this way. -/
inductive ExtBy (canon : String → String) (P : String → Prop) : ErrorMap → ErrorMap → Prop
  | refl (m : ErrorMap) : ExtBy canon P m m
  | step (m M : ErrorMap) (p q : String) (h : ExtBy canon P m M) (hq : P q) :
      ExtBy canon P m (add_error canon M p q)

theorem ext_trans {canon : String → String} {P : String → Prop} {a b c : ErrorMap}
    (h1 : ExtBy canon P a b) (h2 : ExtBy canon P b c) : ExtBy canon P a c := by
  induction h2 with
  | refl => exact h1
  | step M' p q h hq ih => exact ExtBy.step _ _ p q ih hq

theorem ext_add {canon : String → String} {P : String → Prop} (m : ErrorMap) (p q : String)
    (hq : P q) : ExtBy canon P m (add_error canon m p q) :=
  ExtBy.step m m p q (ExtBy.refl m) hq

theorem ext_foldl {canon : String → String} {P : String → Prop} {α : Type}
    (step : ErrorMap → α → ErrorMap) (l : List α)
    (h : ∀ m a, ExtBy canon P m (step m a)) :
    ∀ m, ExtBy canon P m (l.foldl step m) := by
  induction l with
  | nil => intro m; exact ExtBy.refl m
  | cons a t ih => intro m; exact ext_trans (h m a) (ih (step m a))

theorem ext_msg_count {canon : String → String} {P : String → Prop} {m M : ErrorMap}
    (h : ExtBy canon P m M) (msg : String) (hP : ∀ q, P q → q ≠ msg) :
    msg_count msg M = msg_count msg m := by
  induction h with
  | refl => rfl
  | step M' p q h hq ih =>
    rw [msg_count_add, ih, if_neg (hP q hq)]
    omega

theorem ext_errsAt {canon : String → String} {P : String → Prop} {m M : ErrorMap}
    (h : ExtBy canon P m M) (k q' : String) (hm : q' ∈ errsAt m k) : q' ∈ errsAt M k := by
  induction h with
  | refl => exact hm
  | step M' p q h hq ih => exact mem_errsAt_add canon M' p q k q' ih

theorem ext_keys {canon : String → String} {P : String → Prop} {m M : ErrorMap}
    (h : ExtBy canon P m M) (hm : ∀ kv ∈ m, ∃ p, kv.1 = canon p) :
    ∀ kv ∈ M, ∃ p, kv.1 = canon p := by
  induction h with
  | refl => exact hm
  | step M' p q h hq ih =>
    intro kv hkv
    rcases keys_add_go (canon p) q M' kv hkv with h1 | ⟨kv', hkv', he⟩
    · exact ⟨p, h1⟩
    · rcases ih kv' hkv' with ⟨r, hr⟩
      exact ⟨r, he ▸ hr⟩

/-! ## Every phase extends the report only with non-naming messages -/

/-- Messages other than the folder-naming error of step 1. -/
abbrev NotNaming (q : String) : Prop := q ≠ naming_msg

theorem opt_if_some {C : Prop} [Decidable C] {A e : String}
    (h : (if C then some A else none) = some e) : e = A := by
  by_cases hc : C
  · rw [if_pos hc] at h
    injection h with h
    exact h.symm
  · rw [if_neg hc] at h
    exact Option.noConfusion h

theorem check_wav_format_ne (os : OS) (p e : String) (h : check_wav_format os p = some e) :
    NotNaming e := by
  simp only [check_wav_format] at h
  cases hs : os.sfOpen p with
  | ok f =>
    rw [hs] at h
    simp only [] at h
    rw [opt_if_some h]
    exact append_take_ne _ _ _ (by decide)
  | error er =>
    rw [hs] at h
    simp only [] at h
    injection h with h
    subst h
    exact append_take_ne _ _ _ (by decide)

theorem ext_vdc_item (canon : String → String) (os : OS) (fp ext : String)
    (valid : List String) (cb : Option (String → Option String))
    (hcb : ∀ f, cb = some f → ∀ p e, f p = some e → NotNaming e) :
    ∀ m item, ExtBy canon NotNaming m (vdc_item_step canon os fp ext valid cb m item) := by
  intro m item
  simp only [vdc_item_step]
  split
  · exact ext_add _ _ _ (append_take_ne _ _ _ (by decide))
  · split
    · exact ext_add _ _ _ (append_take_ne _ _ _ (by decide))
    · split
      · exact ext_add _ _ _ (append_take_ne _ _ _ (by decide))
      · split
        · split
          · rename_i f _ e heq
            exact ext_add _ _ _ (hcb f rfl _ e heq)
          · exact ExtBy.refl _
        · exact ExtBy.refl _

theorem ext_vdc (canon : String → String) (os : OS) (fp ext : String)
    (exp alw : List String) (cb : Option (String → Option String)) (m M : ErrorMap)
    (hcb : ∀ f, cb = some f → ∀ p e, f p = some e → NotNaming e)
    (h : _validate_dir_contents canon os fp ext exp alw cb m = .ok M) :
    ExtBy canon NotNaming m M := by
  simp only [_validate_dir_contents] at h
  split at h
  · injection h with h
    subst h
    exact ExtBy.refl _
  · split at h
    · exact Except.noConfusion h
    · injection h with h
      subst h
      refine ext_trans ?_ (ext_foldl _ _ (ext_vdc_item canon os fp ext _ cb hcb) _)
      refine ext_foldl _ _ ?_ m
      intro m0 a
      split
      · exact ExtBy.refl _
      · exact ext_add _ _ _ (append_take_ne _ _ _ (by decide))

theorem ext_beat_row (canon : String → String) (bp : String) :
    ∀ m pr, ExtBy canon NotNaming m (beat_row_step canon bp m pr) := by
  intro m pr
  simp only [beat_row_step]
  split
  · exact ExtBy.refl _
  · have base : ExtBy canon NotNaming m
        (if (splitS (stripS pr.2) ',').length ≠ 2 then
          add_error canon m bp ("[列数错误] 第" ++ (Nat.repr pr.1 ++ "行不是2列"))
        else m) := by
      split
      · exact ext_add _ _ _ (append_take_ne _ _ _ (by decide))
      · exact ExtBy.refl _
    by_cases hh : pr.1 = 2 ∧
        (str_in "time" (lowerS (stripS pr.2)) = true ∨ str_in "label" (lowerS (stripS pr.2)) = true)
    · rw [if_pos hh]
      exact ExtBy.step _ _ _ _ base (append_take_ne _ _ _ (by decide))
    · rw [if_neg hh]
      exact base

theorem ext_beat (canon : String → String) (os : OS) (m : ErrorMap) (bp : String) :
    ExtBy canon NotNaming m (beat_check canon os m bp) := by
  simp only [beat_check]
  split
  · exact ext_add _ _ _ (append_take_ne _ _ _ (by decide))
  · split
    · exact ext_add _ _ _ (by decide)
    · refine ext_trans ?_ (ext_foldl _ _ (ext_beat_row canon bp) _)
      split
      · exact ext_add _ _ _ (by decide)
      · exact ExtBy.refl _

theorem ext_structure_row (canon : String → String) (sp : String) (n : Nat) :
    ∀ m pr, ExtBy canon NotNaming m (structure_row_step canon sp n m pr) := by
  intro m pr
  simp only [structure_row_step]
  split
  · exact ExtBy.refl _
  · refine ext_trans ?_ (ext_foldl _ _ ?_ _)
    · split
      · exact ext_add _ _ _ (append_take_ne _ _ _ (by decide))
      · exact ExtBy.refl _
    · intro m0 t
      split
      · exact ext_add _ _ _ (append_take_ne _ _ _ (by decide))
      · exact ExtBy.refl _

theorem ext_structure (canon : String → String) (os : OS) (m : ErrorMap) (sp : String) :
    ExtBy canon NotNaming m (structure_check canon os m sp) := by
  simp only [structure_check]
  split
  · exact ext_add _ _ _ (append_take_ne _ _ _ (by decide))
  · split
    · exact ext_add _ _ _ (by decide)
    · refine ext_trans ?_ (ext_foldl _ _ (ext_structure_row canon sp _) _)
      refine ext_trans ?_ (ext_foldl _ _ ?_ _)
      · split
        · exact ext_add _ _ _ (by decide)
        · exact ExtBy.refl _
      · intro m0 hlab
        split
        · exact ext_add _ _ _ (append_take_ne _ _ _ (by decide))
        · exact ExtBy.refl _

theorem ext_instr_row (canon : String → String) (ip : String) :
    ∀ m pr, ExtBy canon NotNaming m (instr_row_step canon ip m pr) := by
  intro m pr
  simp only [instr_row_step]
  split
  · exact ExtBy.refl _
  · split
    · exact ext_add _ _ _ (append_take_ne _ _ _ (by decide))
    · exact ExtBy.refl _

theorem ext_instr (canon : String → String) (os : OS) (m : ErrorMap) (ip : String) :
    ExtBy canon NotNaming m (instr_csv_check canon os m ip) := by
  simp only [instr_csv_check]
  split
  · exact ext_add _ _ _ (append_take_ne _ _ _ (by decide))
  · split
    · exact ext_add _ _ _ (by decide)
    · refine ext_trans ?_ (ext_foldl _ _ (ext_instr_row canon ip) _)
      split
      · exact ext_add _ _ _ (by decide)
      · exact ExtBy.refl _

theorem ext_mix_scan_step (canon : String → String) (os : OS) (root : String) :
    ∀ st a, ExtBy canon NotNaming st.m ((mix_scan_step canon os root st a).m) := by
  intro st a
  simp only [mix_scan_step]
  split
  · split
    · exact ext_add _ _ _ (append_take_ne _ _ _ (by decide))
    · exact ExtBy.refl _
  · split
    · exact ExtBy.refl _
    · split
      · split
        · exact ext_add _ _ _ (append_take_ne _ _ _ (by decide))
        · exact ExtBy.refl _
      · exact ext_add _ _ _ (append_take_ne _ _ _ (by decide))

theorem ext_mix_scan (canon : String → String) (os : OS) (root : String) :
    ∀ (items : List String) (st : MixScanSt),
      ExtBy canon NotNaming st.m ((items.foldl (mix_scan_step canon os root) st).m) := by
  intro items
  induction items with
  | nil => intro st; exact ExtBy.refl _
  | cons a t ih =>
    intro st
    exact ext_trans (ext_mix_scan_step canon os root st a) (ih (mix_scan_step canon os root st a))

theorem ext_wav_step (canon : String → String) (os : OS) (root sn : String) :
    ∀ st a, ExtBy canon NotNaming st.m ((wav_loop_step canon os root sn st a).m) := by
  intro st a
  simp only [wav_loop_step]
  have base : ExtBy canon NotNaming st.m
      (match check_wav_format os (pjoin root a) with
        | some fmt_err => add_error canon st.m (pjoin root a) fmt_err
        | none => st.m) := by
    cases hcw : check_wav_format os (pjoin root a) with
    | some e => simpa [hcw] using ext_add st.m (pjoin root a) e (check_wav_format_ne os _ e hcw)
    | none => simpa [hcw] using ExtBy.refl st.m
  by_cases h1 : startsW a (sn ++ "_") = false
  · rw [if_pos h1]
    exact ExtBy.step _ _ _ _ base (append_take_ne _ _ _ (by decide))
  · rw [if_neg h1]
    by_cases h2 : (parse_inst sn a).1 = ""
    · rw [if_pos h2]
      exact ExtBy.step _ _ _ _ base (by decide)
    · rw [if_neg h2]
      exact base

theorem ext_wav_fold (canon : String → String) (os : OS) (root sn : String) :
    ∀ (items : List String) (st : WavLoopSt),
      ExtBy canon NotNaming st.m ((items.foldl (wav_loop_step canon os root sn) st).m) := by
  intro items
  induction items with
  | nil => intro st; exact ExtBy.refl _
  | cons a t ih =>
    intro st
    exact ext_trans (ext_wav_step canon os root sn st a) (ih (wav_loop_step canon os root sn st a))

theorem ext_arity_step (canon : String → String) (root : String) :
    ∀ m g, ExtBy canon NotNaming m (arity_step canon root m g) := by
  intro m g
  simp only [arity_step]
  split
  · split
    · split
      · exact ext_add _ _ _ (append_take_ne _ _ _ (by decide))
      · exact ExtBy.refl _
    · exact ExtBy.refl _
  · split
    · refine ext_foldl _ _ ?_ m
      intro m0 it
      split
      · exact ext_add _ _ _ (append_take_ne _ _ _ (by decide))
      · exact ExtBy.refl _
    · exact ExtBy.refl _

theorem ext_mix_after (canon : String → String) (os : OS) (root sn : String) (st : MixScanSt) :
    ExtBy canon NotNaming st.m (mix_after_scan canon os root sn st) := by
  obtain ⟨m0, ws, daws, fcsv⟩ := st
  simp only [mix_after_scan]
  refine ext_trans ?_ (ext_foldl _ _ (ext_arity_step canon root) _)
  refine ext_trans ?_ (ext_wav_fold canon os root sn _ _)
  have base : ExtBy canon NotNaming m0
      (if daws = [] then
        add_error canon m0 root "[缺失文件] 缺少 DAW 工程文件 (需包含 .flp / .logicx / .cpr 任一)"
      else m0) := by
    by_cases hd : daws = []
    · rw [if_pos hd]
      exact ext_add _ _ _ (by decide)
    · rw [if_neg hd]
      exact ExtBy.refl _
  by_cases hc : fcsv = false
  · rw [if_pos hc]
    exact ExtBy.step _ _ _ _ base (by decide)
  · rw [if_neg hc]
    exact ext_trans base (ext_instr canon os _ _)

theorem ext_mix (canon : String → String) (os : OS) (root sn : String) (m M : ErrorMap)
    (h : mix_proj_check canon os root sn m = .ok M) : ExtBy canon NotNaming m M := by
  simp only [mix_proj_check] at h
  split at h
  · injection h with h
    subst h
    exact ExtBy.refl _
  · split at h
    · exact Except.noConfusion h
    · injection h with h
      subst h
      exact ext_trans (ext_mix_scan canon os root _ ⟨m, [], [], false⟩)
        (ext_mix_after canon os root sn _)

theorem ext_csv_stage (canon : String → String) (os : OS) (csv_root sn : String) (m : ErrorMap) :
    ExtBy canon NotNaming m (csv_strict_stage canon os csv_root sn m) := by
  simp only [csv_strict_stage]
  have e1 : ExtBy canon NotNaming m
      (if os.pathExists (pjoin csv_root (sn ++ "_Beat.csv")) = true then
        beat_check canon os m (pjoin csv_root (sn ++ "_Beat.csv"))
      else m) := by
    by_cases h1 : os.pathExists (pjoin csv_root (sn ++ "_Beat.csv")) = true
    · rw [if_pos h1]
      exact ext_beat canon os _ _
    · rw [if_neg h1]
      exact ExtBy.refl _
  refine ext_trans e1 ?_
  by_cases h2 : os.pathExists (pjoin csv_root (sn ++ "_Structure.csv")) = true
  · rw [if_pos h2]
    exact ext_structure canon os _ _
  · rw [if_neg h2]
    exact ExtBy.refl _

theorem ext_rest (canon : String → String) (os : OS) (song_path song_name : String)
    (m M : ErrorMap) (h : check_song_rest canon os song_path song_name m = .ok M) :
    ExtBy canon NotNaming m M := by
  simp only [check_song_rest, exBind] at h
  split at h
  · injection h with h
    subst h
    exact ExtBy.refl _
  · exact Except.noConfusion h
  · split at h
    · exact Except.noConfusion h
    · rename_i m1 hv1
      split at h
      · exact Except.noConfusion h
      · rename_i m2 hv2
        split at h
        · exact Except.noConfusion h
        · rename_i m3 hv3
          split at h
          · exact Except.noConfusion h
          · rename_i m4 hv4
            have hwav : ∀ f : String → Option String, some (check_wav_format os) = some f →
                ∀ p e, f p = some e → NotNaming e := by
              intro f hf p e he
              injection hf with hf
              subst hf
              exact check_wav_format_ne os p e he
            have hnone : ∀ f : String → Option String,
                (none : Option (String → Option String)) = some f →
                ∀ p e, f p = some e → NotNaming e := by
              intro f hf
              exact Option.noConfusion hf
            refine ext_trans ?_ (ext_mix canon os _ _ _ _ h)
            refine ext_trans ?_ (ext_csv_stage canon os _ _ _)
            refine ext_trans ?_ (ext_vdc canon os _ _ _ _ _ _ _ hnone hv4)
            refine ext_trans ?_ (ext_vdc canon os _ _ _ _ _ _ _ hnone hv3)
            refine ext_trans ?_ (ext_vdc canon os _ _ _ _ _ _ _ hwav hv2)
            refine ext_trans ?_ (ext_vdc canon os _ _ _ _ _ _ _ hwav hv1)
            refine ext_trans (ext_foldl _ _ ?_ m) (ext_foldl _ _ ?_ _)
            · intro m0 folder
              split
              · exact ExtBy.refl _
              · exact ext_add _ _ _ (append_take_ne _ _ _ (by decide))
            · intro m0 f
              split
              · exact ext_add _ _ _ (append_take_ne _ _ _ (by decide))
              · exact ExtBy.refl _

/-! ## No-exception lemmas (expected conditions return `.ok`) -/

theorem exBind_always_ok (x : Except PyErr ErrorMap) (f : ErrorMap → Except PyErr ErrorMap)
    (hx : ∃ m, x = .ok m) (hf : ∀ m, ∃ M, f m = .ok M) : ∃ M, exBind x f = .ok M := by
  obtain ⟨m, hm⟩ := hx
  obtain ⟨M, hM⟩ := hf m
  exact ⟨M, by rw [hm]; simpa [exBind] using hM⟩

theorem vdc_ok (canon : String → String) (os : OS) (fp ext : String) (exp alw : List String)
    (cb : Option (String → Option String)) (m : ErrorMap)
    (h : os.pathExists fp = true → ∃ l, os.listdir fp = .ok l) :
    ∃ M, _validate_dir_contents canon os fp ext exp alw cb m = .ok M := by
  simp only [_validate_dir_contents]
  by_cases hex : os.pathExists fp = false
  · rw [if_pos hex]
    exact ⟨m, rfl⟩
  · rw [if_neg hex]
    have hex' : os.pathExists fp = true := by
      revert hex
      cases os.pathExists fp <;> simp
    obtain ⟨l, hl⟩ := h hex'
    rw [hl]
    exact ⟨_, rfl⟩

theorem mix_ok (canon : String → String) (os : OS) (root sn : String) (m : ErrorMap)
    (h : os.pathExists root = true → ∃ l, os.listdir root = .ok l) :
    ∃ M, mix_proj_check canon os root sn m = .ok M := by
  simp only [mix_proj_check]
  by_cases hex : os.pathExists root = false
  · rw [if_pos hex]
    exact ⟨m, rfl⟩
  · rw [if_neg hex]
    have hex' : os.pathExists root = true := by
      revert hex
      cases os.pathExists root <;> simp
    obtain ⟨l, hl⟩ := h hex'
    rw [hl]
    exact ⟨_, rfl⟩

theorem rest_ok (canon : String → String) (os : OS) (sp sn : String) (m : ErrorMap)
    (h1 : os.listdir sp = .error PyErr.fileNotFound ∨ ∃ l, os.listdir sp = .ok l)
    (h2 : ∀ p, os.pathExists p = true → ∃ l, os.listdir p = .ok l) :
    ∃ M, check_song_rest canon os sp sn m = .ok M := by
  simp only [check_song_rest]
  rcases h1 with hfnf | ⟨l, hl⟩
  · rw [hfnf]
    exact ⟨m, rfl⟩
  · rw [hl]
    refine exBind_always_ok _ _ (vdc_ok _ _ _ _ _ _ _ _ (h2 _)) ?_
    intro m1
    refine exBind_always_ok _ _ (vdc_ok _ _ _ _ _ _ _ _ (h2 _)) ?_
    intro m2
    refine exBind_always_ok _ _ (vdc_ok _ _ _ _ _ _ _ _ (h2 _)) ?_
    intro m3
    refine exBind_always_ok _ _ (vdc_ok _ _ _ _ _ _ _ _ (h2 _)) ?_
    intro m4
    exact mix_ok canon os _ _ _ (h2 _)

def isOkB : Except PyErr ErrorMap → Bool
  | .ok _ => true
  | .error _ => false

/-! ## Concrete filesystem instances -/

/-- A filesystem with nothing in it. -/
def c2os : OS :=
  { listdir := fun _ => .error .fileNotFound,
    pathExists := fun _ => false,
    isdir := fun _ => false,
    readlines := fun _ => .error "no such file",
    sfOpen := fun _ => .error "no such file" }

/-- An empty directory at `/foo` (a name that does not match `X_Y_Z`). -/
def c5os : OS :=
  { listdir := fun p => if p = "/foo" then .ok [] else .error .fileNotFound,
    pathExists := fun p => p == "/foo",
    isdir := fun p => p == "/foo",
    readlines := fun _ => .error "no such file",
    sfOpen := fun _ => .error "no such file" }

/-- An empty directory at `/a_b_c` (a name that matches `X_Y_Z`). -/
def c8os : OS :=
  { listdir := fun p => if p = "/a_b_c" then .ok [] else .error .fileNotFound,
    pathExists := fun p => p == "/a_b_c",
    isdir := fun p => p == "/a_b_c",
    readlines := fun _ => .error "no such file",
    sfOpen := fun _ => .error "no such file" }

/-! ## Claim C2 -/

/-- Claim C2, counterexample: for the nonexistent path `/foo` — whose basename
does not match `X_Y_Z` — `check_song_folder` returns a report containing the
folder-naming error, not an empty report, because the naming check runs before
the `os.listdir` that raises `FileNotFoundError`. -/
theorem C2_counterexample :
    check_song_folder posix_canon c2os "/foo" = .ok [("/foo", [naming_msg])]
    ∧ ([("/foo", [naming_msg])] : ErrorMap) ≠ [] := by
  constructor
  · rfl
  · simp

/-- Claim C2, amended: for every path on which `os.listdir` raises
`FileNotFoundError` (a nonexistent path), `check_song_folder` raises no
exception and returns the empty report when the basename matches `X_Y_Z`,
and otherwise a report holding exactly the single folder-naming error keyed
on the canonicalized folder path. -/
theorem C2_amended_thm (canon : String → String) (os : OS) (song_path : String)
    (h : os.listdir song_path = .error PyErr.fileNotFound) :
    check_song_folder canon os song_path
      = .ok (if match_XYZ (basename song_path) = none
             then [(canon song_path, [naming_msg])] else []) := by
  simp only [check_song_folder, check_song_rest, h]
  cases hm : match_XYZ (basename song_path) with
  | none => simp [add_error, add_error_go]
  | some g => simp

/-- Claim C2, witness: the amended statement applied to the concrete
nonexistent path `/foo`. -/
theorem C2_witness :
    check_song_folder posix_canon c2os "/foo"
      = .ok (if match_XYZ (basename "/foo") = none
             then [(posix_canon "/foo", [naming_msg])] else []) :=
  C2_amended_thm posix_canon c2os "/foo" rfl

/-! ## Claim C5 -/

/-- Claim C5: for a song folder whose basename does not match the three-group
pattern `X_Y_Z`, the whole report carries exactly one folder-naming error,
that error sits under the canonicalized song-folder path, and the rest of the
check runs with the raw basename as the song name; for a matching basename the
middle group is the song name and no folder-naming error is emitted. -/
theorem C5_thm (canon : String → String) (os : OS) (song_path : String) :
    (match_XYZ (basename song_path) = none →
      check_song_folder canon os song_path
        = check_song_rest canon os song_path (basename song_path)
            (add_error canon [] song_path naming_msg)
      ∧ ∀ M, check_song_folder canon os song_path = .ok M →
          msg_count naming_msg M = 1 ∧ naming_msg ∈ errsAt M (canon song_path))
    ∧ ∀ a b c, match_XYZ (basename song_path) = some (a, b, c) →
      check_song_folder canon os song_path = check_song_rest canon os song_path b []
      ∧ ∀ M, check_song_folder canon os song_path = .ok M → msg_count naming_msg M = 0 := by
  constructor
  · intro hm
    have heq : check_song_folder canon os song_path
        = check_song_rest canon os song_path (basename song_path)
            (add_error canon [] song_path naming_msg) := by
      simp only [check_song_folder, hm]
    refine ⟨heq, ?_⟩
    intro M hM
    rw [heq] at hM
    have hext := ext_rest canon os _ _ _ _ hM
    constructor
    · rw [ext_msg_count hext naming_msg (fun q hq => hq)]
      simp [add_error, add_error_go, msg_count, count_msg_list]
    · refine ext_errsAt hext _ _ ?_
      simp [add_error, add_error_go, errsAt]
  · intro a b c hm
    have heq : check_song_folder canon os song_path
        = check_song_rest canon os song_path b [] := by
      simp only [check_song_folder, hm]
    refine ⟨heq, ?_⟩
    intro M hM
    rw [heq] at hM
    have hext := ext_rest canon os _ _ _ _ hM
    rw [ext_msg_count hext naming_msg (fun q hq => hq)]
    rfl

/-- Claim C5, witness: on the empty directory `/foo` (non-matching name) the
report carries exactly one folder-naming error, keyed on `/foo`. -/
theorem C5_witness :
    msg_count naming_msg (getOk (check_song_folder posix_canon c5os "/foo")) = 1
    ∧ naming_msg ∈ errsAt (getOk (check_song_folder posix_canon c5os "/foo"))
        (posix_canon "/foo") :=
  ((C5_thm posix_canon c5os "/foo").1 (by decide)).2
    (getOk (check_song_folder posix_canon c5os "/foo")) rfl

/-! ## Claim C9 -/

/-- Claim C9: every key of the report returned by `check_song_folder` is the
canonicalization (`os.path.normpath(os.path.abspath(...))`, the parameter
`canon`) of some path, for every filesystem state and input path. -/
theorem C9_thm (canon : String → String) (os : OS) (song_path : String) (M : ErrorMap)
    (h : check_song_folder canon os song_path = .ok M) :
    ∀ kv ∈ M, ∃ p, kv.1 = canon p := by
  simp only [check_song_folder] at h
  have hext := ext_rest canon os _ _ _ _ h
  refine ext_keys hext ?_
  intro kv hkv
  cases hm : match_XYZ (basename song_path) with
  | none =>
    rw [hm] at hkv
    simp only [add_error, add_error_go] at hkv
    simp at hkv
    exact ⟨song_path, by rw [hkv]⟩
  | some g =>
    rw [hm] at hkv
    simp at hkv

/-- Claim C9, witness: the key of the single entry produced for `/foo` is in
the range of the canonicalization. -/
theorem C9_witness :
    ∃ p, (("/foo", [naming_msg]) : String × List String).1 = posix_canon p :=
  C9_thm posix_canon c2os "/foo" [("/foo", [naming_msg])] rfl ("/foo", [naming_msg])
    (by decide)

/-! ## Claim C8 -/

/-- Claim C8: under the expected conditions — the song path either does not
exist (`FileNotFoundError`) or is listable, and every existing path consulted
is listable — `check_song_folder` raises no exception, whatever the CSV
contents (`readlines` may fail arbitrarily) and whatever the WAV files
(`sfOpen` may fail arbitrarily); those failures become report entries. -/
theorem C8_thm (canon : String → String) (os : OS) (song_path : String)
    (h1 : os.listdir song_path = .error PyErr.fileNotFound ∨ ∃ l, os.listdir song_path = .ok l)
    (h2 : ∀ p, os.pathExists p = true → ∃ l, os.listdir p = .ok l) :
    ∃ M, check_song_folder canon os song_path = .ok M := by
  simp only [check_song_folder]
  exact rest_ok canon os song_path _ _ h1 h2

/-- Claim C8, witness: on the concrete one-directory filesystem `c8os` the
checker returns an `.ok` report. -/
theorem C8_witness : isOkB (check_song_folder posix_canon c8os "/a_b_c") = true := by
  obtain ⟨M, hM⟩ := C8_thm posix_canon c8os "/a_b_c" (Or.inr ⟨[], rfl⟩) (by
    intro p hp
    have hp' : p = "/a_b_c" := by
      have := of_decide_eq_true hp
      exact this
    subst hp'
    exact ⟨[], rfl⟩)
  rw [hM]
  rfl

/-! ## Substring helpers for message-content claims -/

theorem isPre_extend (n : List Char) : ∀ l b : List Char, isPre n l = true →
    isPre n (l ++ b) = true := by
  induction n with
  | nil => intro l b _; rfl
  | cons c cs ih =>
    intro l b h
    cases l with
    | nil => exact absurd h (by simp [isPre])
    | cons d ds =>
      simp only [isPre] at h ⊢
      split at h
      · rename_i hcd
        rw [if_pos hcd]
        exact ih ds b h
      · exact absurd h (by simp)

theorem containsSub_of_isPre (n l : List Char) (h : isPre n l = true) :
    containsSub n l = true := by
  cases l with
  | nil => simpa [containsSub] using h
  | cons c cs => simp [containsSub, h]

theorem containsSub_append_r (n a b : List Char) (h : containsSub n b = true) :
    containsSub n (a ++ b) = true := by
  induction a with
  | nil => simpa using h
  | cons c cs ih => simp [containsSub, ih]

theorem containsSub_append_l (n : List Char) : ∀ a b : List Char, containsSub n a = true →
    containsSub n (a ++ b) = true := by
  intro a
  induction a with
  | nil =>
    intro b h
    have hn : n = [] := by
      cases n with
      | nil => rfl
      | cons x xs => simp [containsSub, isPre] at h
    subst hn
    cases b with
    | nil => rfl
    | cons c cs => simp [containsSub, isPre]
  | cons c cs ih =>
    intro b h
    simp only [containsSub, Bool.or_eq_true] at h
    rcases h with h | h
    · exact containsSub_of_isPre _ _ (isPre_extend n (c :: cs) b h)
    · simp [containsSub, ih b h]

theorem str_in_append_l (n a b : String) (h : str_in n a = true) : str_in n (a ++ b) = true := by
  simp only [str_in, data_append]
  exact containsSub_append_l _ _ _ h

theorem str_in_append_r (n a b : String) (h : str_in n b = true) : str_in n (a ++ b) = true := by
  simp only [str_in, data_append]
  exact containsSub_append_r _ _ _ h

theorem str_in_lit (n lit : String) (h : isPre n.data lit.data = true) (x : String) :
    str_in n (lit ++ x) = true := by
  simp only [str_in, data_append]
  exact containsSub_of_isPre _ _ (isPre_extend _ _ _ h)

theorem startsW_lit (lit x pre : String) (h : isPre pre.data lit.data = true) :
    startsW (lit ++ x) pre = true := by
  simp only [startsW, data_append]
  exact isPre_extend _ _ _ h

/-! ## Claim C4 -/

/-- Claim C4: for a readable WAV, `check_wav_format` returns `none` exactly
when the header is 96000 Hz / 2 channels / 24-bit PCM; any violation yields a
single combined `[音频格式错误]` message that names every violated field
(采样率 / 声道 / 位深); an unreadable file yields the separate
`[无法读取WAV]` message instead. -/
theorem C4_thm (os : OS) (wav_path : String) :
    (∀ info, os.sfOpen wav_path = .ok info →
      ((check_wav_format os wav_path = none) ↔
        (info.samplerate = 96000 ∧ info.channels = 2 ∧ info.subtype = "PCM_24"))
      ∧ (¬(info.samplerate = 96000 ∧ info.channels = 2 ∧ info.subtype = "PCM_24") →
        ∃ s, check_wav_format os wav_path = some s
          ∧ startsW s "[音频格式错误]" = true
          ∧ (info.samplerate ≠ 96000 → str_in "采样率" s = true)
          ∧ (info.channels ≠ 2 → str_in "声道" s = true)
          ∧ (info.subtype ≠ "PCM_24" → str_in "位深" s = true)))
    ∧ ∀ e, os.sfOpen wav_path = .error e →
        check_wav_format os wav_path = some ("[无法读取WAV] (" ++ (e ++ ")")) := by
  constructor
  · intro info hok
    by_cases h1 : info.samplerate = 96000 <;> by_cases h2 : info.channels = 2 <;>
      by_cases h3 : info.subtype = "PCM_24"
    · refine ⟨by simp [check_wav_format, hok, h1, h2, h3], ?_⟩
      intro hc
      exact absurd ⟨h1, h2, h3⟩ hc
    · refine ⟨by simp [check_wav_format, hok, h1, h2, h3], ?_⟩
      intro _
      refine ⟨"[音频格式错误] (" ++ (("位深 " ++ (info.subtype ++ " != PCM_24")) ++ ")"),
        by simp [check_wav_format, hok, h1, h2, h3, joinSep], ?_, ?_, ?_, ?_⟩
      · exact startsW_lit _ _ _ (by decide)
      · intro hc
        exact absurd h1 hc
      · intro hc
        exact absurd h2 hc
      · intro _
        exact str_in_append_r _ _ _ (str_in_append_l _ _ _ (str_in_lit _ "位深 " (by decide) _))
    · refine ⟨by simp [check_wav_format, hok, h1, h2, h3], ?_⟩
      intro _
      refine ⟨"[音频格式错误] (" ++ (("声道 " ++ (Nat.repr info.channels ++ " != 2")) ++ ")"),
        by simp [check_wav_format, hok, h1, h2, h3, joinSep], ?_, ?_, ?_, ?_⟩
      · exact startsW_lit _ _ _ (by decide)
      · intro hc
        exact absurd h1 hc
      · intro _
        exact str_in_append_r _ _ _ (str_in_append_l _ _ _ (str_in_lit _ "声道 " (by decide) _))
      · intro hc
        exact absurd h3 hc
    · refine ⟨by simp [check_wav_format, hok, h1, h2, h3], ?_⟩
      intro _
      refine ⟨"[音频格式错误] (" ++
          ((("声道 " ++ (Nat.repr info.channels ++ " != 2") ++ "; ") ++
            ("位深 " ++ (info.subtype ++ " != PCM_24"))) ++ ")"),
        by simp [check_wav_format, hok, h1, h2, h3, joinSep], ?_, ?_, ?_, ?_⟩
      · exact startsW_lit _ _ _ (by decide)
      · intro hc
        exact absurd h1 hc
      · intro _
        exact str_in_append_r _ _ _ (str_in_append_l _ _ _ (str_in_append_l _ _ _
          (str_in_lit _ "声道 " (by decide) _)))
      · intro _
        exact str_in_append_r _ _ _ (str_in_append_l _ _ _ (str_in_append_r _ _ _
          (str_in_lit _ "位深 " (by decide) _)))
    · refine ⟨by simp [check_wav_format, hok, h1, h2, h3], ?_⟩
      intro _
      refine ⟨"[音频格式错误] (" ++ (("采样率 " ++ (Nat.repr info.samplerate ++ " != 96000")) ++ ")"),
        by simp [check_wav_format, hok, h1, h2, h3, joinSep], ?_, ?_, ?_, ?_⟩
      · exact startsW_lit _ _ _ (by decide)
      · intro _
        exact str_in_append_r _ _ _ (str_in_append_l _ _ _ (str_in_lit _ "采样率 " (by decide) _))
      · intro hc
        exact absurd h2 hc
      · intro hc
        exact absurd h3 hc
    · refine ⟨by simp [check_wav_format, hok, h1, h2, h3], ?_⟩
      intro _
      refine ⟨"[音频格式错误] (" ++
          ((("采样率 " ++ (Nat.repr info.samplerate ++ " != 96000") ++ "; ") ++
            ("位深 " ++ (info.subtype ++ " != PCM_24"))) ++ ")"),
        by simp [check_wav_format, hok, h1, h2, h3, joinSep], ?_, ?_, ?_, ?_⟩
      · exact startsW_lit _ _ _ (by decide)
      · intro _
        exact str_in_append_r _ _ _ (str_in_append_l _ _ _ (str_in_append_l _ _ _
          (str_in_lit _ "采样率 " (by decide) _)))
      · intro hc
        exact absurd h2 hc
      · intro _
        exact str_in_append_r _ _ _ (str_in_append_l _ _ _ (str_in_append_r _ _ _
          (str_in_lit _ "位深 " (by decide) _)))
    · refine ⟨by simp [check_wav_format, hok, h1, h2, h3], ?_⟩
      intro _
      refine ⟨"[音频格式错误] (" ++
          ((("采样率 " ++ (Nat.repr info.samplerate ++ " != 96000") ++ "; ") ++
            ("声道 " ++ (Nat.repr info.channels ++ " != 2"))) ++ ")"),
        by simp [check_wav_format, hok, h1, h2, h3, joinSep], ?_, ?_, ?_, ?_⟩
      · exact startsW_lit _ _ _ (by decide)
      · intro _
        exact str_in_append_r _ _ _ (str_in_append_l _ _ _ (str_in_append_l _ _ _
          (str_in_lit _ "采样率 " (by decide) _)))
      · intro _
        exact str_in_append_r _ _ _ (str_in_append_l _ _ _ (str_in_append_r _ _ _
          (str_in_lit _ "声道 " (by decide) _)))
      · intro hc
        exact absurd h3 hc
    · refine ⟨by simp [check_wav_format, hok, h1, h2, h3], ?_⟩
      intro _
      refine ⟨"[音频格式错误] (" ++
          ((("采样率 " ++ (Nat.repr info.samplerate ++ " != 96000") ++ "; ") ++
            (("声道 " ++ (Nat.repr info.channels ++ " != 2") ++ "; ") ++
              ("位深 " ++ (info.subtype ++ " != PCM_24")))) ++ ")"),
        by simp [check_wav_format, hok, h1, h2, h3, joinSep], ?_, ?_, ?_, ?_⟩
      · exact startsW_lit _ _ _ (by decide)
      · intro _
        exact str_in_append_r _ _ _ (str_in_append_l _ _ _ (str_in_append_l _ _ _
          (str_in_lit _ "采样率 " (by decide) _)))
      · intro _
        exact str_in_append_r _ _ _ (str_in_append_l _ _ _ (str_in_append_r _ _ _
          (str_in_append_l _ _ _ (str_in_lit _ "声道 " (by decide) _))))
      · intro _
        exact str_in_append_r _ _ _ (str_in_append_l _ _ _ (str_in_append_r _ _ _
          (str_in_append_r _ _ _ (str_in_lit _ "位深 " (by decide) _))))
  · intro e he
    simp [check_wav_format, he]

/-- A WAV whose header violates both the sample rate and the channel count. -/
def c4os : OS :=
  { listdir := fun _ => .error .fileNotFound,
    pathExists := fun p => p == "/w.wav",
    isdir := fun _ => false,
    readlines := fun _ => .error "no such file",
    sfOpen := fun p => if p = "/w.wav" then .ok ⟨44100, 1, "PCM_24"⟩ else .error "no such file" }

/-- Claim C4, witness: for the concrete 44100 Hz mono file the none-iff
instance of the theorem holds. -/
theorem C4_witness :
    (check_wav_format c4os "/w.wav" = none) ↔
      ((44100 : Nat) = 96000 ∧ (1 : Nat) = 2 ∧ "PCM_24" = "PCM_24") :=
  ((C4_thm c4os "/w.wav").1 ⟨44100, 1, "PCM_24"⟩ rfl).1

/-! ## Claim C3 -/

theorem ext_vdc_item_any (canon : String → String) (os : OS) (fp ext : String)
    (valid : List String) (cb : Option (String → Option String)) :
    ∀ m item, ExtBy canon (fun _ => True) m (vdc_item_step canon os fp ext valid cb m item) := by
  intro m item
  simp only [vdc_item_step]
  split
  · exact ext_add _ _ _ trivial
  · split
    · exact ext_add _ _ _ trivial
    · split
      · exact ext_add _ _ _ trivial
      · split
        · split
          · exact ext_add _ _ _ trivial
          · exact ExtBy.refl _
        · exact ExtBy.refl _

theorem vdc_item_mem (canon : String → String) (os : OS) (fp ext : String)
    (valid : List String) (cb : Option (String → Option String)) (m : ErrorMap) (a : String) :
    (os.isdir (pjoin fp a) = true →
      ("[多余文件夹] " ++ a) ∈
        errsAt (vdc_item_step canon os fp ext valid cb m a) (canon (pjoin fp a)))
    ∧ (os.isdir (pjoin fp a) = false → endsW (lowerS a) (lowerS ext) = false →
      ("[多余文件/格式错误] " ++ a) ∈
        errsAt (vdc_item_step canon os fp ext valid cb m a) (canon (pjoin fp a)))
    ∧ (os.isdir (pjoin fp a) = false → endsW (lowerS a) (lowerS ext) = true → a ∉ valid →
      ("[多余文件] " ++ a) ∈
        errsAt (vdc_item_step canon os fp ext valid cb m a) (canon (pjoin fp a)))
    ∧ (os.isdir (pjoin fp a) = false → endsW (lowerS a) (lowerS ext) = true → a ∈ valid →
      ∀ f e, cb = some f → f (pjoin fp a) = some e →
        e ∈ errsAt (vdc_item_step canon os fp ext valid cb m a) (canon (pjoin fp a))) := by
  refine ⟨?_, ?_, ?_, ?_⟩
  · intro hdir
    simp only [vdc_item_step]
    rw [if_pos hdir, errsAt_add_self]
    exact List.mem_append_right _ (List.mem_singleton.mpr rfl)
  · intro hdir hext
    simp only [vdc_item_step]
    rw [if_neg (by simp [hdir]), if_pos hext, errsAt_add_self]
    exact List.mem_append_right _ (List.mem_singleton.mpr rfl)
  · intro hdir hext hnv
    simp only [vdc_item_step]
    rw [if_neg (by simp [hdir]), if_neg (by simp [hext]), if_pos hnv, errsAt_add_self]
    exact List.mem_append_right _ (List.mem_singleton.mpr rfl)
  · intro hdir hext hv f e hf he
    simp only [vdc_item_step]
    rw [if_neg (by simp [hdir]), if_neg (by simp [hext]), if_neg (by simp [hv]), hf]
    simp only [he, errsAt_add_self]
    exact List.mem_append_right _ (List.mem_singleton.mpr rfl)

theorem vdc_fold_mem (canon : String → String) (os : OS) (fp ext : String)
    (valid : List String) (cb : Option (String → Option String)) :
    ∀ (items : List String) (m : ErrorMap) (a : String), a ∈ items →
      ((os.isdir (pjoin fp a) = true →
        ("[多余文件夹] " ++ a) ∈
          errsAt (items.foldl (vdc_item_step canon os fp ext valid cb) m) (canon (pjoin fp a)))
      ∧ (os.isdir (pjoin fp a) = false → endsW (lowerS a) (lowerS ext) = false →
        ("[多余文件/格式错误] " ++ a) ∈
          errsAt (items.foldl (vdc_item_step canon os fp ext valid cb) m) (canon (pjoin fp a)))
      ∧ (os.isdir (pjoin fp a) = false → endsW (lowerS a) (lowerS ext) = true → a ∉ valid →
        ("[多余文件] " ++ a) ∈
          errsAt (items.foldl (vdc_item_step canon os fp ext valid cb) m) (canon (pjoin fp a)))
      ∧ (os.isdir (pjoin fp a) = false → endsW (lowerS a) (lowerS ext) = true → a ∈ valid →
        ∀ f e, cb = some f → f (pjoin fp a) = some e →
          e ∈ errsAt (items.foldl (vdc_item_step canon os fp ext valid cb) m)
            (canon (pjoin fp a)))) := by
  intro items
  induction items with
  | nil =>
    intro m a ha
    cases ha
  | cons b t ih =>
    intro m a ha
    rcases List.mem_cons.mp ha with rfl | ht
    · have hmono : ∀ q k, q ∈ errsAt (vdc_item_step canon os fp ext valid cb m a) k →
          q ∈ errsAt (t.foldl (vdc_item_step canon os fp ext valid cb)
            (vdc_item_step canon os fp ext valid cb m a)) k := by
        intro q k hq
        exact ext_errsAt (ext_foldl _ _ (ext_vdc_item_any canon os fp ext valid cb) _) k q hq
      obtain ⟨c1, c2, c3, c4⟩ := vdc_item_mem canon os fp ext valid cb m a
      exact ⟨fun hd => hmono _ _ (c1 hd),
             fun hd he => hmono _ _ (c2 hd he),
             fun hd he hn => hmono _ _ (c3 hd he hn),
             fun hd he hv f e hf hfe => hmono _ _ (c4 hd he hv f e hf hfe)⟩
    · exact ih (vdc_item_step canon os fp ext valid cb m b) a ht

/-- Claim C3: in every per-subdirectory reconciliation, every listed item is
classified exactly as the source's loop does it — a subdirectory gets an
extra-folder error on its own path; otherwise an extension mismatch
(case-insensitive) gets an extra-file/format error; otherwise a filename
outside required∪allowed gets an extra-file error; otherwise the rule's
optional validator runs and its error, if any, is attached to the item's
path. -/
theorem C3_thm (canon : String → String) (os : OS) (fp ext : String)
    (exp alw : List String) (cb : Option (String → Option String)) (m M : ErrorMap)
    (items : List String)
    (hex : os.pathExists fp = true)
    (hls : os.listdir fp = .ok items)
    (h : _validate_dir_contents canon os fp ext exp alw cb m = .ok M) :
    ∀ item ∈ items,
      (os.isdir (pjoin fp item) = true →
        ("[多余文件夹] " ++ item) ∈ errsAt M (canon (pjoin fp item)))
      ∧ (os.isdir (pjoin fp item) = false → endsW (lowerS item) (lowerS ext) = false →
        ("[多余文件/格式错误] " ++ item) ∈ errsAt M (canon (pjoin fp item)))
      ∧ (os.isdir (pjoin fp item) = false → endsW (lowerS item) (lowerS ext) = true →
          item ∉ exp ++ alw →
        ("[多余文件] " ++ item) ∈ errsAt M (canon (pjoin fp item)))
      ∧ (os.isdir (pjoin fp item) = false → endsW (lowerS item) (lowerS ext) = true →
          item ∈ exp ++ alw →
        ∀ f e, cb = some f → f (pjoin fp item) = some e →
          e ∈ errsAt M (canon (pjoin fp item))) := by
  intro item hitem
  simp only [_validate_dir_contents] at h
  rw [if_neg (by simp [hex])] at h
  rw [hls] at h
  simp only [] at h
  injection h with h
  subst h
  exact vdc_fold_mem canon os fp ext (exp ++ alw) cb items _ item hitem

/-- A directory `/d` holding a single subdirectory `sub`. -/
def c3os : OS :=
  { listdir := fun p => if p = "/d" then .ok ["sub"] else .error .fileNotFound,
    pathExists := fun p => p == "/d" || p == "/d/sub",
    isdir := fun p => p == "/d" || p == "/d/sub",
    readlines := fun _ => .error "no such file",
    sfOpen := fun _ => .error "no such file" }

/-- Claim C3, witness: the subdirectory `sub` of `/d` receives the
extra-folder error on its own path. -/
theorem C3_witness :
    ("[多余文件夹] " ++ "sub")
      ∈ errsAt (getOk (_validate_dir_contents posix_canon c3os "/d" ".wav" [] [] none []))
        (posix_canon "/d/sub") :=
  (C3_thm posix_canon c3os "/d" ".wav" [] [] none []
      (getOk (_validate_dir_contents posix_canon c3os "/d" ".wav" [] [] none []))
      ["sub"] rfl rfl rfl "sub" (by decide)).1 rfl

/-! ## Claim C1 -/

/-- The folder `A_Song_B` holding only the stems directory 分轨wav with the
two well-formed vocal WAVs. -/
def c1os : OS :=
  { listdir := fun p =>
      if p = "/A_Song_B" then .ok ["分轨wav"]
      else if p = "/A_Song_B/分轨wav" then .ok ["Song_Vocal_A.wav", "Song_Vocal_B.wav"]
      else .error .fileNotFound,
    pathExists := fun p =>
      ["/A_Song_B", "/A_Song_B/分轨wav",
        "/A_Song_B/分轨wav/Song_Vocal_A.wav", "/A_Song_B/分轨wav/Song_Vocal_B.wav"].contains p,
    isdir := fun p => ["/A_Song_B", "/A_Song_B/分轨wav"].contains p,
    readlines := fun _ => .error "no such file",
    sfOpen := fun p =>
      if ["/A_Song_B/分轨wav/Song_Vocal_A.wav", "/A_Song_B/分轨wav/Song_Vocal_B.wav"].contains p
      then .ok ⟨96000, 2, "PCM_24"⟩ else .error "cannot open" }

/-- The report the checker actually produces for `c1os`. -/
def c1report : ErrorMap :=
  [("/A_Song_B",
    ["[缺失目录] 缺少 总轨wav", "[缺失目录] 缺少 midi", "[缺失目录] 缺少 csv",
     "[缺失目录] 缺少 混音工程原文件"]),
   ("/A_Song_B/分轨wav",
    ["[缺失文件] Song_Vocal_A(干声).wav", "[缺失文件] Song_Vocal_B(干声).wav"])]

/-- Claim C1, counterexample: on the spec's own end-to-end example the report
has exactly 2 path keys, not 3 — both missing-干声-file errors are keyed on
the stems folder path (`_validate_dir_contents` reports missing files on
`folder_path`), not one key per missing file. -/
theorem C1_counterexample :
    check_song_folder posix_canon c1os "/A_Song_B" = .ok c1report ∧ c1report.length ≠ 3 := by
  constructor
  · rfl
  · decide

/-- Claim C1, amended: the report has 1 entry for the song-folder path holding
the 4 missing-directory errors plus 1 entry for the stems folder holding the
2 missing-干声-file errors — 6 error strings across exactly 2 path keys. -/
theorem C1_amended_thm :
    check_song_folder posix_canon c1os "/A_Song_B" = .ok c1report
    ∧ c1report.length = 2
    ∧ (c1report.map (fun kv => kv.2.length)).sum = 6 := by
  refine ⟨rfl, by decide, by decide⟩

/-! ## Claim C6 -/

/-- A song folder `X_S_Y` whose DAW-project folder holds `S_BASS_1.wav` (one
take, indexed), `S_GTR.wav` and `S_GTR_2.wav` (two takes, one unindexed), a
project file and a well-formed sidecar CSV; all WAVs pass the format check. -/
def c6os : OS :=
  { listdir := fun p =>
      if p = "/X_S_Y" then .ok ["混音工程原文件"]
      else if p = "/X_S_Y/混音工程原文件" then
        .ok ["S_BASS_1.wav", "S_GTR.wav", "S_GTR_2.wav", "proj.flp", "乐器音源对照表.csv"]
      else .error .fileNotFound,
    pathExists := fun p => p == "/X_S_Y" || p == "/X_S_Y/混音工程原文件",
    isdir := fun p => p == "/X_S_Y" || p == "/X_S_Y/混音工程原文件",
    readlines := fun p =>
      if p = "/X_S_Y/混音工程原文件/乐器音源对照表.csv" then .ok ["乐器,音源\n", "Piano,Keyscape\n"]
      else .error "no such file",
    sfOpen := fun p =>
      if endsW p ".wav" then .ok ⟨96000, 2, "PCM_24"⟩ else .error "not wav" }

/-- Claim C6: `S_BASS_1.wav` — the only BASS take, carrying an index — gets
exactly the redundant-index arity error on its own path; `S_GTR.wav` — one of
two GTR takes, lacking an index — gets exactly the missing-index arity error
naming the take count 2; the indexed `S_GTR_2.wav` gets no error. -/
theorem C6_thm :
    errsAt (getOk (check_song_folder posix_canon c6os "/X_S_Y"))
        "/X_S_Y/混音工程原文件/S_BASS_1.wav"
      = ["[命名冗余] 乐器 \x27BASS\x27 只有一条轨道，不应包含序号"]
    ∧ errsAt (getOk (check_song_folder posix_canon c6os "/X_S_Y"))
        "/X_S_Y/混音工程原文件/S_GTR.wav"
      = ["[命名缺失] 乐器 \x27GTR\x27 有 2 条轨道，必须通过序号区分"]
    ∧ errsAt (getOk (check_song_folder posix_canon c6os "/X_S_Y"))
        "/X_S_Y/混音工程原文件/S_GTR_2.wav"
      = [] :=
  ⟨rfl, rfl, rfl⟩

/-! ## Claim C7 -/

/-- The messages the Beat-CSV loop generates for one data row (the loop body
of lines 218–231, flattened). -/
def beat_row_msgs (pr : Nat × String) : List String :=
  let line := stripS pr.2
  if line = "" then []
  else
    (if (splitS line ',').length ≠ 2 then
      ["[列数错误] 第" ++ (Nat.repr pr.1 ++ "行不是2列")] else []) ++
    (if pr.1 = 2 ∧ (str_in "time" (lowerS line) = true ∨ str_in "label" (lowerS line) = true) then
      ["[内容错误] 第" ++ (Nat.repr pr.1 ++ "行疑似表头重复或格式不符")] else [])

def rows_msgs : List (Nat × String) → List String
  | [] => []
  | r :: t => beat_row_msgs r ++ rows_msgs t

def add_msgs (canon : String → String) (m : ErrorMap) (p : String) (msgs : List String) :
    ErrorMap :=
  msgs.foldl (fun m q => add_error canon m p q) m

theorem add_msgs_append (canon : String → String) (m : ErrorMap) (p : String)
    (a b : List String) :
    add_msgs canon m p (a ++ b) = add_msgs canon (add_msgs canon m p a) p b := by
  simp [add_msgs, List.foldl_append]

theorem errsAt_add_msgs (canon : String → String) (p : String) :
    ∀ (msgs : List String) (m : ErrorMap),
      errsAt (add_msgs canon m p msgs) (canon p) = errsAt m (canon p) ++ msgs := by
  intro msgs
  induction msgs with
  | nil => intro m; simp [add_msgs]
  | cons q t ih =>
    intro m
    have hstep : add_msgs canon m p (q :: t) = add_msgs canon (add_error canon m p q) p t := rfl
    rw [hstep, ih, errsAt_add_self]
    simp

theorem beat_row_step_eq (canon : String → String) (bp : String) (m : ErrorMap)
    (pr : Nat × String) :
    beat_row_step canon bp m pr = add_msgs canon m bp (beat_row_msgs pr) := by
  simp only [beat_row_step, beat_row_msgs]
  by_cases hline : stripS pr.2 = ""
  · rw [if_pos hline, if_pos hline]
    rfl
  · rw [if_neg hline, if_neg hline]
    by_cases hcol : (splitS (stripS pr.2) ',').length ≠ 2 <;>
      by_cases hh : pr.1 = 2 ∧
        (str_in "time" (lowerS (stripS pr.2)) = true ∨ str_in "label" (lowerS (stripS pr.2)) = true) <;>
      simp [hcol, hh, add_msgs]

theorem beat_fold_eq (canon : String → String) (bp : String) :
    ∀ (rows : List (Nat × String)) (m : ErrorMap),
      rows.foldl (beat_row_step canon bp) m = add_msgs canon m bp (rows_msgs rows) := by
  intro rows
  induction rows with
  | nil => intro m; rfl
  | cons r t ih =>
    intro m
    simp only [List.foldl, rows_msgs]
    rw [beat_row_step_eq, ih, add_msgs_append]

/-- A Beat CSV whose line 2 has three fields and contains "time". -/
def c7os : OS :=
  { listdir := fun _ => .error .fileNotFound,
    pathExists := fun p => p == "/csv/S_Beat.csv",
    isdir := fun _ => false,
    readlines := fun p =>
      if p = "/csv/S_Beat.csv" then .ok ["TIME,LABEL\n", "a,b,time\n"]
      else .error "no such file",
    sfOpen := fun _ => .error "not wav" }

/-- A Beat CSV whose line 2 has three fields and no header-like word. -/
def c7bos : OS :=
  { listdir := fun _ => .error .fileNotFound,
    pathExists := fun p => p == "/csv/S_Beat.csv",
    isdir := fun _ => false,
    readlines := fun p =>
      if p = "/csv/S_Beat.csv" then .ok ["TIME,LABEL\n", "1,2,3\n"]
      else .error "no such file",
    sfOpen := fun _ => .error "not wav" }

/-- Claim C7, counterexample: with the exact header `TIME,LABEL`, the row
`a,b,time` at line 2 splits into 3 fields yet receives TWO errors — the
column-count error and the duplicate-header-heuristic error — refuting "no
other error for that row". -/
theorem C7_counterexample :
    beat_check posix_canon c7os [] "/csv/S_Beat.csv"
      = [("/csv/S_Beat.csv",
          ["[列数错误] 第2行不是2列", "[内容错误] 第2行疑似表头重复或格式不符"])]
    ∧ (["[列数错误] 第2行不是2列", "[内容错误] 第2行疑似表头重复或格式不符"] : List String).length
        ≠ 1 := by
  constructor
  · rfl
  · decide

/-- Claim C7, amended: a lowercase (or any non-`TIME,LABEL`) first line gets
the header content error; with the exact header, the errors under the Beat
path are precisely the per-row messages concatenated row by row, and a
non-blank row with a field count other than 2 contributes exactly the one
column-count message for its row — except a row at line 2 whose lowercased
text contains "time" or "label", which additionally gets the
suspected-duplicate-header error. -/
theorem C7_amended_thm (canon : String → String) (os : OS) (beat_path : String)
    (lines : List String) (hr : os.readlines beat_path = .ok lines) (hne : lines ≠ []) :
    (stripS (lines.headD "") ≠ "TIME,LABEL" →
      "[表头错误] 必须严格为 TIME,LABEL（全大写，逗号分隔，不能有多余空格）"
        ∈ errsAt (beat_check canon os [] beat_path) (canon beat_path))
    ∧ (stripS (lines.headD "") = "TIME,LABEL" →
      errsAt (beat_check canon os [] beat_path) (canon beat_path)
        = rows_msgs (List.enumFrom 2 lines.tail)
      ∧ ∀ idx line, stripS line ≠ "" → (splitS (stripS line) ',').length ≠ 2 →
          (¬(idx = 2 ∧ (str_in "time" (lowerS (stripS line)) = true
              ∨ str_in "label" (lowerS (stripS line)) = true)) →
            beat_row_msgs (idx, line) = ["[列数错误] 第" ++ (Nat.repr idx ++ "行不是2列")])
          ∧ ((idx = 2 ∧ (str_in "time" (lowerS (stripS line)) = true
              ∨ str_in "label" (lowerS (stripS line)) = true)) →
            beat_row_msgs (idx, line)
              = ["[列数错误] 第" ++ (Nat.repr idx ++ "行不是2列"),
                 "[内容错误] 第" ++ (Nat.repr idx ++ "行疑似表头重复或格式不符")])) := by
  constructor
  · intro hh
    simp only [beat_check, hr]
    rw [if_neg hne, if_pos hh, beat_fold_eq, errsAt_add_msgs, errsAt_add_self]
    simp
  · intro hh
    constructor
    · simp only [beat_check, hr]
      rw [if_neg hne, if_neg (not_not_intro hh), beat_fold_eq, errsAt_add_msgs]
      simp [errsAt]
    · intro idx line hline hcol
      constructor
      · intro hno
        simp only [beat_row_msgs]
        rw [if_neg hline, if_pos hcol, if_neg hno]
        rfl
      · intro hyes
        simp only [beat_row_msgs]
        rw [if_neg hline, if_pos hcol, if_pos hyes]
        rfl

/-- Claim C7, witness: the amended statement applied to the concrete file
`TIME,LABEL` / `1,2,3`. -/
theorem C7_witness :
    errsAt (beat_check posix_canon c7bos [] "/csv/S_Beat.csv") (posix_canon "/csv/S_Beat.csv")
      = rows_msgs (List.enumFrom 2 (["TIME,LABEL\n", "1,2,3\n"] : List String).tail) :=
  ((C7_amended_thm posix_canon c7bos "/csv/S_Beat.csv" ["TIME,LABEL\n", "1,2,3\n"] rfl
      (by decide)).2 (by decide)).1

/-! ## Claim C10 -/

theorem mem_errsAt_add_self (canon : String → String) (m : ErrorMap) (p q : String) :
    q ∈ errsAt (add_error canon m p q) (canon p) := by
  rw [errsAt_add_self]
  exact List.mem_append_right _ (List.mem_singleton.mpr rfl)

theorem mix_scan_csv_false (canon : String → String) (os : OS) (root : String)
    (hdir : os.isdir (pjoin root "乐器音源对照表.csv") = true) :
    ∀ (items : List String) (st : MixScanSt), st.found_csv = false →
      (items.foldl (mix_scan_step canon os root) st).found_csv = false := by
  intro items
  induction items with
  | nil =>
    intro st h
    exact h
  | cons a t ih =>
    intro st h
    refine ih _ ?_
    simp only [mix_scan_step]
    split
    · split
      · exact h
      · exact h
    · split
      · exact h
      · split
        · rename_i hname
          split
          · exact h
          · rename_i hnd
            subst hname
            exact absurd hdir hnd
        · exact h

theorem mix_scan_type_err (canon : String → String) (os : OS) (root : String)
    (hdir : os.isdir (pjoin root "乐器音源对照表.csv") = true) :
    ∀ (items : List String) (st : MixScanSt), "乐器音源对照表.csv" ∈ items →
      ("[类型错误] " ++ ("乐器音源对照表.csv" ++ " 不应是文件夹"))
        ∈ errsAt ((items.foldl (mix_scan_step canon os root) st).m)
          (canon (pjoin root "乐器音源对照表.csv")) := by
  intro items
  induction items with
  | nil =>
    intro st h
    cases h
  | cons a t ih =>
    intro st hmem
    rcases List.mem_cons.mp hmem with rfl | ht
    · have hstep2 : mix_scan_step canon os root st "乐器音源对照表.csv"
          = { st with m := (add_error canon st.m (pjoin root "乐器音源对照表.csv") ("[类型错误] " ++ ("乐器音源对照表.csv" ++ " 不应是文件夹"))) } := by
        simp only [mix_scan_step, hdir]
        rfl
      refine ext_errsAt (ext_mix_scan canon os root t _) _ _ ?_
      rw [hstep2]
      exact mem_errsAt_add_self canon st.m _ _
    · exact ih (mix_scan_step canon os root st a) ht

/-- Claim C10: if the DAW-project folder lists an entry named
`乐器音源对照表.csv` that is a directory, the report gets both the type error
on that entry's path and the missing-sidecar error on the folder path, and
the sidecar's content validation never runs — the result is unchanged under
an arbitrary replacement of the file-reading function. -/
theorem C10_thm (canon : String → String) (os : OS) (root sn : String) (m : ErrorMap)
    (items : List String) (M : ErrorMap)
    (hex : os.pathExists root = true)
    (hls : os.listdir root = .ok items)
    (hmem : "乐器音源对照表.csv" ∈ items)
    (hdir : os.isdir (pjoin root "乐器音源对照表.csv") = true)
    (hok : mix_proj_check canon os root sn m = .ok M) :
    ("[类型错误] " ++ ("乐器音源对照表.csv" ++ " 不应是文件夹"))
      ∈ errsAt M (canon (pjoin root "乐器音源对照表.csv"))
    ∧ "[缺失文件] 缺少 乐器音源对照表.csv" ∈ errsAt M (canon root)
    ∧ ∀ rl, mix_proj_check canon { os with readlines := rl } root sn m = .ok M := by
  simp only [mix_proj_check] at hok
  rw [if_neg (by simp [hex]), hls] at hok
  simp only [] at hok
  injection hok with hok
  subst hok
  have hfcsv : (items.foldl (mix_scan_step canon os root)
      (⟨m, [], [], false⟩ : MixScanSt)).found_csv = false :=
    mix_scan_csv_false canon os root hdir items ⟨m, [], [], false⟩ rfl
  refine ⟨?_, ?_, ?_⟩
  · refine ext_errsAt (ext_mix_after canon os root sn _) _ _ ?_
    exact mix_scan_type_err canon os root hdir items ⟨m, [], [], false⟩ hmem
  · simp only [mix_after_scan]
    rw [if_pos hfcsv]
    refine ext_errsAt (ext_foldl _ _ (ext_arity_step canon root) _) _ _ ?_
    refine ext_errsAt (ext_wav_fold canon os root sn _ _) _ _ ?_
    exact mem_errsAt_add_self canon _ root _
  · intro rl
    simp only [mix_proj_check]
    rw [if_neg (by simp [hex]), hls]
    simp only []
    have hscan : items.foldl (mix_scan_step canon { os with readlines := rl } root)
        (⟨m, [], [], false⟩ : MixScanSt)
        = items.foldl (mix_scan_step canon os root) ⟨m, [], [], false⟩ := rfl
    rw [hscan]
    simp only [mix_after_scan]
    rw [if_pos hfcsv, if_pos hfcsv]
    rfl

/-- A DAW-project folder `/r` whose entry `乐器音源对照表.csv` is a
directory, next to a project file `x.flp`. -/
def c10os : OS :=
  { listdir := fun p =>
      if p = "/r" then .ok ["乐器音源对照表.csv", "x.flp"] else .error .fileNotFound,
    pathExists := fun p => p == "/r" || p == "/r/乐器音源对照表.csv" || p == "/r/x.flp",
    isdir := fun p => p == "/r" || p == "/r/乐器音源对照表.csv",
    readlines := fun _ => .error "should not be read",
    sfOpen := fun _ => .error "not wav" }

/-- Claim C10, witness: the type error lands on the sidecar-directory path of
the concrete folder `/r`. -/
theorem C10_witness :
    ("[类型错误] " ++ ("乐器音源对照表.csv" ++ " 不应是文件夹"))
      ∈ errsAt (getOk (mix_proj_check posix_canon c10os "/r" "S" []))
        (posix_canon (pjoin "/r" "乐器音源对照表.csv")) :=
  (C10_thm posix_canon c10os "/r" "S" [] ["乐器音源对照表.csv", "x.flp"]
      (getOk (mix_proj_check posix_canon c10os "/r" "S" []))
      rfl rfl (by decide) rfl rfl).1
